import Mathlib

/-!
Verification of the `store` package (src/store.go): a facade over the
Firestore document-database client.  The facade is embedded shallowly:
the external client is an abstract record of operations returning
`Except ε _`, and each Go method becomes a Lean function over it.
Go `interface{}` predicate values are modelled by the closed `Value`
variant of serializable Firestore types.
-/

namespace FStore

/-- A caller-supplied predicate/payload value (Go `interface{}`),
modelled as the closed variant of Firestore-serializable types. -/
inductive Value where
  | null
  | str (s : String)
  | int (n : Int)
  | bool (b : Bool)
  | arr (xs : List Value)

mutual

/-- Boolean equality of values (used by the modelled query evaluator). -/
def Value.beq : Value → Value → Bool
  | .null, .null => true
  | .str a, .str b => a == b
  | .int a, .int b => a == b
  | .bool a, .bool b => a == b
  | .arr xs, .arr ys => Value.beqList xs ys
  | _, _ => false

/-- Boolean equality of value lists. -/
def Value.beqList : List Value → List Value → Bool
  | [], [] => true
  | x :: xs, y :: ys => Value.beq x y && Value.beqList xs ys
  | _, _ => false

end

/-- One `Where(field, op, value)` clause of a query. -/
structure Filter where
  field : String
  op : String
  value : Value

/-- `firestore.Direction` (`Asc` / `Desc`). -/
inductive Direction where
  | asc
  | desc
deriving DecidableEq, Repr

/-- The query a facade method issues against the client: the result of
the `Collection(c).Where(...)....OrderBy(...).Limit(...)` builder chain. -/
structure Query where
  collection : String
  wheres : List Filter := []
  orderOn : Option (String × Direction) := none
  limit : Option Nat := none

/-- `*firestore.DocumentRef`: collection plus document identifier. -/
structure DocumentRef where
  collection : String
  id : String
deriving DecidableEq, Repr

/-- `*firestore.WriteResult` (its contents are discarded by every caller
in the source). -/
structure WriteResult where
  unit : Unit := ()
deriving DecidableEq, Repr

/-- The external Firestore client SDK, abstracted: `S` is the snapshot
type (`*firestore.DocumentSnapshot`), `ε` the client's native error type.
`runQuery q` is `...Documents(ctx).GetAll()` on the built query `q`;
`addDoc` is `Collection(c).Add(ctx, d)`; `getDoc` is `ref.Get(ctx)`;
`setDoc` is `ref.Set(ctx, data)`; `deleteDoc` is `ref.Delete(ctx)`. -/
structure FirestoreClient (S ε : Type) where
  runQuery : Query → Except ε (List S)
  addDoc : String → Value → Except ε (DocumentRef × WriteResult)
  getDoc : DocumentRef → Except ε S
  setDoc : DocumentRef → Value → Except ε WriteResult
  deleteDoc : DocumentRef → Except ε WriteResult

/-- The package's error vocabulary.  `notFound`, `invalidID`,
`docsNotFound`, `forbidden` are the four sentinel values declared at the
top of src/store.go; `wrap msg e` is `errors.Wrap(e, msg)` from
github.com/pkg/errors; `indexOutOfRange` stands for the Go runtime
panic a `ds[0]` on an empty slice would raise. -/
inductive Err (ε : Type) where
  | notFound
  | invalidID
  | docsNotFound
  | forbidden
  | wrap (msg : String) (cause : ε)
  | indexOutOfRange

/-- `Firestore` struct: holds the client handle. -/
structure Firestore (S ε : Type) where
  Client : FirestoreClient S ε

/-- Query built by `FindOneByField`: one Where clause, limit 1. -/
def findOneByFieldQuery (c f op : String) (v : Value) : Query :=
  { collection := c, wheres := [⟨f, op, v⟩], limit := some 1 }

/-- Query built by `FindOneByTwoFields`: two chained Where clauses, limit 1. -/
def findOneByTwoFieldsQuery (c ff fop : String) (fv : Value)
    (sf sop : String) (sv : Value) : Query :=
  { collection := c, wheres := [⟨ff, fop, fv⟩, ⟨sf, sop, sv⟩], limit := some 1 }

/-- Query built by `FindAllByField`: one Where clause, no limit. -/
def findAllByFieldQuery (c f op : String) (v : Value) : Query :=
  { collection := c, wheres := [⟨f, op, v⟩] }

/-- Query built by `FindAllByFieldAndOrder`: one Where clause plus OrderBy. -/
def findAllByFieldAndOrderQuery (c f op : String) (v : Value)
    (p : String) (dir : Direction) : Query :=
  { collection := c, wheres := [⟨f, op, v⟩], orderOn := some (p, dir) }

/-- Query built by `FindAllByTwoFields`: two chained Where clauses, no limit. -/
def findAllByTwoFieldsQuery (c ff fop : String) (fv : Value)
    (sf sop : String) (sv : Value) : Query :=
  { collection := c, wheres := [⟨ff, fop, fv⟩, ⟨sf, sop, sv⟩] }

/-- Query built by `FindFromArray`: the membership value parameter is a
Go `string`, passed as the Where value of an `array-contains` clause. -/
def findFromArrayQuery (c f v : String) : Query :=
  { collection := c, wheres := [⟨f, "array-contains", Value.str v⟩] }

/-- Query built by `GetAll`: the bare collection. -/
def getAllQuery (c : String) : Query :=
  { collection := c }

/-- Query built by `GetAllByOrder`: the collection with an OrderBy. -/
def getAllByOrderQuery (c p : String) (dir : Direction) : Query :=
  { collection := c, orderOn := some (p, dir) }

/-- `FindOneByField` (src/store.go:55-67). -/
def Firestore.FindOneByField (fs : Firestore S ε) (c f op : String)
    (v : Value) : Except (Err ε) S :=
  match fs.Client.runQuery (findOneByFieldQuery c f op v) with
  | .error _ => .error .docsNotFound
  | .ok ds =>
    if ds.length ≤ 0 then .error .notFound
    else
      match ds[0]? with
      | some d => .ok d
      | none => .error .indexOutOfRange

/-- `FindOneByTwoFields` (src/store.go:70-82). -/
def Firestore.FindOneByTwoFields (fs : Firestore S ε) (c ff fop : String)
    (fv : Value) (sf sop : String) (sv : Value) : Except (Err ε) S :=
  match fs.Client.runQuery (findOneByTwoFieldsQuery c ff fop fv sf sop sv) with
  | .error _ => .error .docsNotFound
  | .ok ds =>
    if ds.length ≤ 0 then .error .notFound
    else
      match ds[0]? with
      | some d => .ok d
      | none => .error .indexOutOfRange

/-- `Delete` (src/store.go:85-92): the underlying error is returned
verbatim (the result type carries `ε` itself, not `Err ε`). -/
def Firestore.Delete (fs : Firestore S ε) (ref : DocumentRef) :
    Except ε Unit :=
  match fs.Client.deleteDoc ref with
  | .error e => .error e
  | .ok _ => .ok ()

/-- `FindAllByField` (src/store.go:95-107). -/
def Firestore.FindAllByField (fs : Firestore S ε) (c f op : String)
    (v : Value) : Except (Err ε) (List S) :=
  match fs.Client.runQuery (findAllByFieldQuery c f op v) with
  | .error _ => .error .docsNotFound
  | .ok ds => if ds.length ≤ 0 then .error .notFound else .ok ds

/-- `FindAllByFieldAndOrder` (src/store.go:110-123). -/
def Firestore.FindAllByFieldAndOrder (fs : Firestore S ε) (c f op : String)
    (v : Value) (p : String) (dir : Direction) : Except (Err ε) (List S) :=
  match fs.Client.runQuery (findAllByFieldAndOrderQuery c f op v p dir) with
  | .error _ => .error .docsNotFound
  | .ok ds => if ds.length ≤ 0 then .error .notFound else .ok ds

/-- `FindAllByTwoFields` (src/store.go:126-138). -/
def Firestore.FindAllByTwoFields (fs : Firestore S ε) (c ff fop : String)
    (fv : Value) (sf sop : String) (sv : Value) : Except (Err ε) (List S) :=
  match fs.Client.runQuery (findAllByTwoFieldsQuery c ff fop fv sf sop sv) with
  | .error _ => .error .docsNotFound
  | .ok ds => if ds.length ≤ 0 then .error .notFound else .ok ds

/-- `FindFromArray` (src/store.go:141-153): note the value parameter is
typed `string` in the source. -/
def Firestore.FindFromArray (fs : Firestore S ε) (c f v : String) :
    Except (Err ε) (List S) :=
  match fs.Client.runQuery (findFromArrayQuery c f v) with
  | .error _ => .error .docsNotFound
  | .ok ds => if ds.length ≤ 0 then .error .notFound else .ok ds

/-- `GetAll` (src/store.go:156-168). -/
def Firestore.GetAll (fs : Firestore S ε) (c : String) :
    Except (Err ε) (List S) :=
  match fs.Client.runQuery (getAllQuery c) with
  | .error _ => .error .docsNotFound
  | .ok ds => if ds.length ≤ 0 then .error .notFound else .ok ds

/-- `GetAllByOrder` (src/store.go:171-183). -/
def Firestore.GetAllByOrder (fs : Firestore S ε) (c p : String)
    (dir : Direction) : Except (Err ε) (List S) :=
  match fs.Client.runQuery (getAllByOrderQuery c p dir) with
  | .error _ => .error .docsNotFound
  | .ok ds => if ds.length ≤ 0 then .error .notFound else .ok ds

/-- `Add` (src/store.go:186-199): insert, then re-read via the returned
reference; each failure is wrapped with its contextual message. -/
def Firestore.Add (fs : Firestore S ε) (c : String) (d : Value) :
    Except (Err ε) S :=
  match fs.Client.addDoc c d with
  | .error e => .error (.wrap "adding document" e)
  | .ok (dRef, _) =>
    match fs.Client.getDoc dRef with
    | .error e => .error (.wrap "getting document snapshot from firebase" e)
    | .ok ds => .ok ds

/-- The message Go fmt produces for the malformed format string
`"updating document %s"` applied to zero arguments. -/
def updateWrapMsg : String := "updating document %!s(MISSING)"

/-- `Update` (src/store.go:202-209): `ref.Set` then wrap any failure.
The source's `errors.Wrapf(err, "updating document %s")` supplies no
argument for `%s`, so the message is the constant `updateWrapMsg`,
independent of the document reference. -/
def Firestore.Update (fs : Firestore S ε) (df : DocumentRef)
    (data : Value) : Except (Err ε) Unit :=
  match fs.Client.setDoc df data with
  | .error e => .error (.wrap updateWrapMsg e)
  | .ok _ => .ok ()

/-! ## A modelled Firestore backend

The query execution below is not code of this repository: it belongs to
the external Firestore service.  It is modelled from the spec so that
the facade can be exercised on concrete data. -/

/-- Modelled from the spec: a document, "a schemaless record of named
fields stored in a collection".  It doubles as the snapshot type. -/
structure Doc where
  fields : List (String × Value)

/-- Field lookup in a document. -/
def Doc.getField (d : Doc) (f : String) : Option Value :=
  (d.fields.find? (fun p => p.1 == f)).map Prod.snd

/-- Modelled from the spec: strict ordering on comparable values. -/
def Value.ltv : Value → Value → Bool
  | .int a, .int b => decide (a < b)
  | .str a, .str b => decide (a < b)
  | _, _ => false

/-- Modelled from the spec: evaluation of one comparison operator on a
stored field value `x` against the predicate value `v` (the
`array-contains` operator is the membership predicate). -/
def evalOp (op : String) (x v : Value) : Bool :=
  if op == "==" then Value.beq x v
  else if op == ">" then Value.ltv v x
  else if op == "<" then Value.ltv x v
  else if op == ">=" then Value.ltv v x || Value.beq x v
  else if op == "<=" then Value.ltv x v || Value.beq x v
  else if op == "array-contains" then
    match x with
    | .arr xs => xs.any (fun y => Value.beq y v)
    | _ => false
  else false

/-- Modelled from the spec: a document satisfies one predicate. -/
def matchesFilter (w : Filter) (d : Doc) : Bool :=
  match d.getField w.field with
  | some x => evalOp w.op x w.value
  | none => false

/-- Modelled from the spec: a document satisfies a predicate list —
the conjunction (AND) of the clauses. -/
def matchesWheres (ws : List Filter) (d : Doc) : Bool :=
  ws.all (fun w => matchesFilter w d)

/-- Modelled from the spec: ordering of two documents on the OrderBy
field in the given direction. -/
def docLe (dir : Direction) (p : String) (a b : Doc) : Bool :=
  match a.getField p, b.getField p with
  | some x, some y =>
    match dir with
    | .asc => Value.ltv x y || Value.beq x y
    | .desc => Value.ltv y x || Value.beq x y
  | _, _ => true

/-- Insertion step of the stable sort used by the modelled backend. -/
def insertByLe (le : Doc → Doc → Bool) (d : Doc) : List Doc → List Doc
  | [] => [d]
  | x :: xs => if le d x then d :: x :: xs else x :: insertByLe le d xs

/-- Stable insertion sort used by the modelled backend. -/
def sortByLe (le : Doc → Doc → Bool) : List Doc → List Doc
  | [] => []
  | x :: xs => insertByLe le x (sortByLe le xs)

/-- Modelled from the spec: the database state, mapping collection
names to their documents. -/
structure Database where
  collections : List (String × List Doc)

/-- Documents of a named collection (empty when absent). -/
def Database.docsIn (db : Database) (c : String) : List Doc :=
  match db.collections.find? (fun p => p.1 == c) with
  | some p => p.2
  | none => []

/-- Modelled from the spec: query execution — filter the collection by
the conjunction of the Where clauses, sort by the OrderBy field and
direction when present, then apply the result-count limit. -/
def runQueryOn (db : Database) (q : Query) : Except String (List Doc) :=
  let matched := (db.docsIn q.collection).filter (matchesWheres q.wheres)
  let ordered :=
    match q.orderOn with
    | some (p, dir) => sortByLe (docLe dir p) matched
    | none => matched
  let limited :=
    match q.limit with
    | some n => ordered.take n
    | none => ordered
  .ok limited

/-- A client whose queries run on the modelled backend (mutations are
not needed by the query claims). -/
def clientOf (db : Database) : FirestoreClient Doc String :=
  { runQuery := runQueryOn db
  , addDoc := fun _ _ => .error "unsupported"
  , getDoc := fun _ => .error "unsupported"
  , setDoc := fun _ _ => .error "unsupported"
  , deleteDoc := fun _ => .error "unsupported" }

/-! ## Concrete clients and data used by the example scenarios -/

/-- The document `\x7bname:"a", age:30\x7d` of the spec's scenario. -/
def docA : Doc := ⟨[("name", Value.str "a"), ("age", Value.int 30)]⟩

/-- The document `\x7bname:"b", age:25\x7d` of the spec's scenario. -/
def docB : Doc := ⟨[("name", Value.str "b"), ("age", Value.int 25)]⟩

/-- The scenario database: collection `users` holds `docA` and `docB`. -/
def usersDB : Database := ⟨[("users", [docA, docB])]⟩

/-- The facade over the scenario database. -/
def usersStore : Firestore Doc String := ⟨clientOf usersDB⟩

/-- A client whose every call fails with the error `"network"`;
simulates a transport failure of the underlying client. -/
def failClient : FirestoreClient Doc String :=
  { runQuery := fun _ => .error "network"
  , addDoc := fun _ _ => .error "network"
  , getDoc := fun _ => .error "network"
  , setDoc := fun _ _ => .error "network"
  , deleteDoc := fun _ => .error "network" }

/-- The facade over the always-failing client. -/
def failStore : Firestore Doc String := ⟨failClient⟩

/-- A client whose queries succeed with zero documents and whose
mutations succeed. -/
def emptyClient : FirestoreClient Doc String :=
  { runQuery := fun _ => .ok []
  , addDoc := fun c _ => .ok (⟨c, "new1"⟩, ⟨()⟩)
  , getDoc := fun _ => .ok docA
  , setDoc := fun _ _ => .ok ⟨()⟩
  , deleteDoc := fun _ => .ok ⟨()⟩ }

/-- The facade over `emptyClient`. -/
def emptyStore : Firestore Doc String := ⟨emptyClient⟩

/-- A client whose insert succeeds but whose post-insert read fails. -/
def addOkGetFailClient : FirestoreClient Doc String :=
  { runQuery := fun _ => .ok []
  , addDoc := fun c _ => .ok (⟨c, "new1"⟩, ⟨()⟩)
  , getDoc := fun _ => .error "read-after-write failed"
  , setDoc := fun _ _ => .ok ⟨()⟩
  , deleteDoc := fun _ => .ok ⟨()⟩ }

/-- The facade over `addOkGetFailClient`. -/
def addOkGetFailStore : Firestore Doc String := ⟨addOkGetFailClient⟩

/-! ## Result-shape helpers

Every find-all method in the source repeats the same body; `allShape`
names that shared shape, and every find-one method repeats the shape
`oneShape`.  The `_eq` lemmas record (definitionally) that each method
is its query plugged into the corresponding shape. -/

/-- The result shape shared by the five find-all methods and `GetAll` /
`GetAllByOrder`. -/
def allShape {S ε : Type} (res : Except ε (List S)) :
    Except (Err ε) (List S) :=
  match res with
  | .error _ => .error .docsNotFound
  | .ok ds => if ds.length ≤ 0 then .error .notFound else .ok ds

/-- The result shape shared by the two find-one methods. -/
def oneShape {S ε : Type} (res : Except ε (List S)) : Except (Err ε) S :=
  match res with
  | .error _ => .error .docsNotFound
  | .ok ds =>
    if ds.length ≤ 0 then .error .notFound
    else
      match ds[0]? with
      | some d => .ok d
      | none => .error .indexOutOfRange

theorem findOneByField_eq {S ε : Type} (fs : Firestore S ε)
    (c f op : String) (v : Value) :
    fs.FindOneByField c f op v
      = oneShape (fs.Client.runQuery (findOneByFieldQuery c f op v)) := rfl

theorem findOneByTwoFields_eq {S ε : Type} (fs : Firestore S ε)
    (c ff fop : String) (fv : Value) (sf sop : String) (sv : Value) :
    fs.FindOneByTwoFields c ff fop fv sf sop sv
      = oneShape (fs.Client.runQuery
          (findOneByTwoFieldsQuery c ff fop fv sf sop sv)) := rfl

theorem findAllByField_eq {S ε : Type} (fs : Firestore S ε)
    (c f op : String) (v : Value) :
    fs.FindAllByField c f op v
      = allShape (fs.Client.runQuery (findAllByFieldQuery c f op v)) := rfl

theorem findAllByFieldAndOrder_eq {S ε : Type} (fs : Firestore S ε)
    (c f op : String) (v : Value) (p : String) (dir : Direction) :
    fs.FindAllByFieldAndOrder c f op v p dir
      = allShape (fs.Client.runQuery
          (findAllByFieldAndOrderQuery c f op v p dir)) := rfl

theorem findAllByTwoFields_eq {S ε : Type} (fs : Firestore S ε)
    (c ff fop : String) (fv : Value) (sf sop : String) (sv : Value) :
    fs.FindAllByTwoFields c ff fop fv sf sop sv
      = allShape (fs.Client.runQuery
          (findAllByTwoFieldsQuery c ff fop fv sf sop sv)) := rfl

theorem findFromArray_eq {S ε : Type} (fs : Firestore S ε) (c f v : String) :
    fs.FindFromArray c f v
      = allShape (fs.Client.runQuery (findFromArrayQuery c f v)) := rfl

theorem getAll_eq {S ε : Type} (fs : Firestore S ε) (c : String) :
    fs.GetAll c = allShape (fs.Client.runQuery (getAllQuery c)) := rfl

theorem getAllByOrder_eq {S ε : Type} (fs : Firestore S ε)
    (c p : String) (dir : Direction) :
    fs.GetAllByOrder c p dir
      = allShape (fs.Client.runQuery (getAllByOrderQuery c p dir)) := rfl

theorem allShape_error {S ε : Type} (e : ε) :
    allShape (S := S) (.error e) = .error .docsNotFound := rfl

theorem allShape_empty {S ε : Type} :
    allShape (S := S) (ε := ε) (.ok []) = .error .notFound := rfl

theorem allShape_ok_ne_nil {S ε : Type} (res : Except ε (List S))
    (ds : List S) (h : allShape res = .ok ds) : ds ≠ [] := by
  cases res with
  | error e => simp [allShape] at h
  | ok l =>
    cases l with
    | nil => simp [allShape] at h
    | cons x xs =>
      simp [allShape] at h
      intro hnil
      rw [hnil] at h
      cases h

theorem allShape_error_cases {S ε : Type} (res : Except ε (List S))
    (err : Err ε) (h : allShape res = .error err) :
    err = .docsNotFound ∨ err = .notFound := by
  cases res with
  | error e =>
    left
    exact (Except.error.inj (h.symm.trans (allShape_error (S := S) e)))
  | ok l =>
    cases l with
    | nil =>
      right
      exact (Except.error.inj (h.symm.trans (allShape_empty (S := S) (ε := ε))))
    | cons x xs => simp [allShape] at h

theorem oneShape_error {S ε : Type} (e : ε) :
    oneShape (S := S) (.error e) = .error .docsNotFound := rfl

theorem oneShape_empty {S ε : Type} :
    oneShape (ε := ε) (.ok ([] : List S)) = .error .notFound := rfl

theorem oneShape_ok {S ε : Type} (res : Except ε (List S)) (d : S)
    (h : oneShape res = .ok d) :
    ∃ ds, res = .ok ds ∧ ds[0]? = some d ∧ ds ≠ [] := by
  cases res with
  | error e => simp [oneShape] at h
  | ok ds =>
    cases ds with
    | nil => simp [oneShape] at h
    | cons x xs =>
      simp [oneShape] at h
      exact ⟨x :: xs, rfl, by simp [h], by simp⟩

theorem oneShape_ne_indexOutOfRange {S ε : Type} (res : Except ε (List S)) :
    oneShape res ≠ .error .indexOutOfRange := by
  cases res with
  | error e =>
    intro h
    injection h with h2
    cases h2
  | ok ds =>
    cases ds with
    | nil =>
      intro h
      injection h with h2
      cases h2
    | cons x xs => simp [oneShape]

theorem oneShape_error_cases {S ε : Type} (res : Except ε (List S))
    (err : Err ε) (h : oneShape res = .error err) :
    err = .docsNotFound ∨ err = .notFound := by
  cases res with
  | error e =>
    left
    exact (Except.error.inj (h.symm.trans (oneShape_error (S := S) e)))
  | ok ds =>
    cases ds with
    | nil =>
      right
      exact (Except.error.inj (h.symm.trans (oneShape_empty (S := S) (ε := ε))))
    | cons x xs => simp [oneShape] at h

/-! ## Claim theorems -/

/-- C1: for every find operation (FindOneByField, FindOneByTwoFields,
FindAllByField, FindAllByTwoFields, FindAllByFieldAndOrder,
FindFromArray, GetAll, GetAllByOrder), if the underlying client's query
call fails — with any error `e` — the operation returns `ErrDocsNotFound`,
which is distinct from the not-found error. -/
theorem find_client_failure_yields_docsNotFound {S ε : Type}
    (fs : Firestore S ε) (c f op ff fop sf sop p : String)
    (v fv sv : Value) (vs : String) (dir : Direction) (e : ε) :
    (fs.Client.runQuery (findOneByFieldQuery c f op v) = .error e →
      fs.FindOneByField c f op v = .error .docsNotFound) ∧
    (fs.Client.runQuery (findOneByTwoFieldsQuery c ff fop fv sf sop sv)
        = .error e →
      fs.FindOneByTwoFields c ff fop fv sf sop sv = .error .docsNotFound) ∧
    (fs.Client.runQuery (findAllByFieldQuery c f op v) = .error e →
      fs.FindAllByField c f op v = .error .docsNotFound) ∧
    (fs.Client.runQuery (findAllByTwoFieldsQuery c ff fop fv sf sop sv)
        = .error e →
      fs.FindAllByTwoFields c ff fop fv sf sop sv = .error .docsNotFound) ∧
    (fs.Client.runQuery (findAllByFieldAndOrderQuery c f op v p dir)
        = .error e →
      fs.FindAllByFieldAndOrder c f op v p dir = .error .docsNotFound) ∧
    (fs.Client.runQuery (findFromArrayQuery c f vs) = .error e →
      fs.FindFromArray c f vs = .error .docsNotFound) ∧
    (fs.Client.runQuery (getAllQuery c) = .error e →
      fs.GetAll c = .error .docsNotFound) ∧
    (fs.Client.runQuery (getAllByOrderQuery c p dir) = .error e →
      fs.GetAllByOrder c p dir = .error .docsNotFound) ∧
    (Err.docsNotFound : Err ε) ≠ Err.notFound := by
  refine ⟨?_, ?_, ?_, ?_, ?_, ?_, ?_, ?_, ?_⟩
  · intro h; rw [findOneByField_eq, h]; rfl
  · intro h; rw [findOneByTwoFields_eq, h]; rfl
  · intro h; rw [findAllByField_eq, h]; rfl
  · intro h; rw [findAllByTwoFields_eq, h]; rfl
  · intro h; rw [findAllByFieldAndOrder_eq, h]; rfl
  · intro h; rw [findFromArray_eq, h]; rfl
  · intro h; rw [getAll_eq, h]; rfl
  · intro h; rw [getAllByOrder_eq, h]; rfl
  · intro h; cases h

/-- C1 witness: a simulated transport failure (`failStore`, whose client
fails every call with `"network"`) surfaces as `ErrDocsNotFound` on all
eight find operations. -/
theorem find_client_failure_witness :
    failStore.FindOneByField "users" "age" ">" (Value.int 0)
      = .error .docsNotFound ∧
    failStore.FindOneByTwoFields "users" "name" "==" (Value.str "a")
        "age" ">" (Value.int 0) = .error .docsNotFound ∧
    failStore.FindAllByField "users" "age" ">" (Value.int 0)
      = .error .docsNotFound ∧
    failStore.FindAllByTwoFields "users" "name" "==" (Value.str "a")
        "age" ">" (Value.int 0) = .error .docsNotFound ∧
    failStore.FindAllByFieldAndOrder "users" "age" ">" (Value.int 0)
        "age" Direction.asc = .error .docsNotFound ∧
    failStore.FindFromArray "users" "age" "go" = .error .docsNotFound ∧
    failStore.GetAll "users" = .error .docsNotFound ∧
    failStore.GetAllByOrder "users" "age" Direction.asc
      = .error .docsNotFound := by
  obtain ⟨h1, h2, h3, h4, h5, h6, h7, h8, _⟩ :=
    find_client_failure_yields_docsNotFound failStore "users" "age" ">"
      "name" "==" "age" ">" "age" (Value.int 0) (Value.str "a")
      (Value.int 0) "go" Direction.asc "network"
  exact ⟨h1 rfl, h2 rfl, h3 rfl, h4 rfl, h5 rfl, h6 rfl, h7 rfl, h8 rfl⟩

/-- C2: for every find operation, a successful query with zero matching
documents yields `ErrNotFound`; a successful result is never an empty
sequence (and the find-one result always comes from a nonempty result
list, so it is never a missing snapshot). -/
theorem find_empty_yields_notFound {S ε : Type}
    (fs : Firestore S ε) (c f op ff fop sf sop p : String)
    (v fv sv : Value) (vs : String) (dir : Direction) :
    (fs.Client.runQuery (findOneByFieldQuery c f op v) = .ok [] →
      fs.FindOneByField c f op v = .error .notFound) ∧
    (fs.Client.runQuery (findOneByTwoFieldsQuery c ff fop fv sf sop sv)
        = .ok [] →
      fs.FindOneByTwoFields c ff fop fv sf sop sv = .error .notFound) ∧
    (fs.Client.runQuery (findAllByFieldQuery c f op v) = .ok [] →
      fs.FindAllByField c f op v = .error .notFound) ∧
    (fs.Client.runQuery (findAllByTwoFieldsQuery c ff fop fv sf sop sv)
        = .ok [] →
      fs.FindAllByTwoFields c ff fop fv sf sop sv = .error .notFound) ∧
    (fs.Client.runQuery (findAllByFieldAndOrderQuery c f op v p dir)
        = .ok [] →
      fs.FindAllByFieldAndOrder c f op v p dir = .error .notFound) ∧
    (fs.Client.runQuery (findFromArrayQuery c f vs) = .ok [] →
      fs.FindFromArray c f vs = .error .notFound) ∧
    (fs.Client.runQuery (getAllQuery c) = .ok [] →
      fs.GetAll c = .error .notFound) ∧
    (fs.Client.runQuery (getAllByOrderQuery c p dir) = .ok [] →
      fs.GetAllByOrder c p dir = .error .notFound) ∧
    (∀ d, fs.FindOneByField c f op v = .ok d →
      ∃ ds, fs.Client.runQuery (findOneByFieldQuery c f op v) = .ok ds ∧
        ds ≠ []) ∧
    (∀ d, fs.FindOneByTwoFields c ff fop fv sf sop sv = .ok d →
      ∃ ds, fs.Client.runQuery (findOneByTwoFieldsQuery c ff fop fv sf sop sv)
          = .ok ds ∧ ds ≠ []) ∧
    (∀ ds, fs.FindAllByField c f op v = .ok ds → ds ≠ []) ∧
    (∀ ds, fs.FindAllByTwoFields c ff fop fv sf sop sv = .ok ds → ds ≠ []) ∧
    (∀ ds, fs.FindAllByFieldAndOrder c f op v p dir = .ok ds → ds ≠ []) ∧
    (∀ ds, fs.FindFromArray c f vs = .ok ds → ds ≠ []) ∧
    (∀ ds, fs.GetAll c = .ok ds → ds ≠ []) ∧
    (∀ ds, fs.GetAllByOrder c p dir = .ok ds → ds ≠ []) := by
  refine ⟨?_, ?_, ?_, ?_, ?_, ?_, ?_, ?_, ?_, ?_, ?_, ?_, ?_, ?_, ?_, ?_⟩
  · intro h; rw [findOneByField_eq, h]; rfl
  · intro h; rw [findOneByTwoFields_eq, h]; rfl
  · intro h; rw [findAllByField_eq, h]; rfl
  · intro h; rw [findAllByTwoFields_eq, h]; rfl
  · intro h; rw [findAllByFieldAndOrder_eq, h]; rfl
  · intro h; rw [findFromArray_eq, h]; rfl
  · intro h; rw [getAll_eq, h]; rfl
  · intro h; rw [getAllByOrder_eq, h]; rfl
  · intro d h
    rw [findOneByField_eq] at h
    obtain ⟨ds, hq, _, hne⟩ := oneShape_ok _ _ h
    exact ⟨ds, hq, hne⟩
  · intro d h
    rw [findOneByTwoFields_eq] at h
    obtain ⟨ds, hq, _, hne⟩ := oneShape_ok _ _ h
    exact ⟨ds, hq, hne⟩
  · intro ds h; rw [findAllByField_eq] at h; exact allShape_ok_ne_nil _ _ h
  · intro ds h; rw [findAllByTwoFields_eq] at h
    exact allShape_ok_ne_nil _ _ h
  · intro ds h; rw [findAllByFieldAndOrder_eq] at h
    exact allShape_ok_ne_nil _ _ h
  · intro ds h; rw [findFromArray_eq] at h; exact allShape_ok_ne_nil _ _ h
  · intro ds h; rw [getAll_eq] at h; exact allShape_ok_ne_nil _ _ h
  · intro ds h; rw [getAllByOrder_eq] at h; exact allShape_ok_ne_nil _ _ h

/-- C2 witness: against `emptyStore` (whose client answers every query
with zero documents) all eight find operations return `ErrNotFound`, and
against the scenario store the nonemptiness facts hold at `docA`. -/
theorem find_empty_yields_notFound_witness :
    emptyStore.FindOneByField "users" "age" ">" (Value.int 0)
      = .error .notFound ∧
    emptyStore.FindOneByTwoFields "users" "name" "==" (Value.str "a")
        "age" ">" (Value.int 0) = .error .notFound ∧
    emptyStore.FindAllByField "users" "age" ">" (Value.int 0)
      = .error .notFound ∧
    emptyStore.FindAllByTwoFields "users" "name" "==" (Value.str "a")
        "age" ">" (Value.int 0) = .error .notFound ∧
    emptyStore.FindAllByFieldAndOrder "users" "age" ">" (Value.int 0)
        "age" Direction.asc = .error .notFound ∧
    emptyStore.FindFromArray "users" "age" "go" = .error .notFound ∧
    emptyStore.GetAll "users" = .error .notFound ∧
    emptyStore.GetAllByOrder "users" "age" Direction.asc
      = .error .notFound ∧
    (∃ ds, usersStore.Client.runQuery
        (findOneByFieldQuery "users" "age" ">" (Value.int 0)) = .ok ds ∧
      ds ≠ []) := by
  obtain ⟨h1, h2, h3, h4, h5, h6, h7, h8, _⟩ :=
    find_empty_yields_notFound emptyStore "users" "age" ">"
      "name" "==" "age" ">" "age" (Value.int 0) (Value.str "a")
      (Value.int 0) "go" Direction.asc
  obtain ⟨_, _, _, _, _, _, _, _, h9, _⟩ :=
    find_empty_yields_notFound usersStore "users" "age" ">"
      "name" "==" "age" ">" "age" (Value.int 0) (Value.str "a")
      (Value.int 0) "go" Direction.asc
  exact ⟨h1 rfl, h2 rfl, h3 rfl, h4 rfl, h5 rfl, h6 rfl, h7 rfl, h8 rfl,
    h9 docA rfl⟩

/-- C9: the success path of the find-one operations never indexes into
an empty sequence — the out-of-bounds branch (modelled by the
`indexOutOfRange` outcome of `oneShape`) is unreachable, for every
client behavior and every argument. -/
theorem findOne_never_indexOutOfRange {S ε : Type} (fs : Firestore S ε)
    (c f op ff fop sf sop : String) (v fv sv : Value) :
    fs.FindOneByField c f op v ≠ .error .indexOutOfRange ∧
    fs.FindOneByTwoFields c ff fop fv sf sop sv
      ≠ .error .indexOutOfRange := by
  constructor
  · rw [findOneByField_eq]; exact oneShape_ne_indexOutOfRange _
  · rw [findOneByTwoFields_eq]; exact oneShape_ne_indexOutOfRange _

/-- C10: every error returned by any of the eight find operations is
one of the two package-level sentinels `ErrDocsNotFound` or
`ErrNotFound`. -/
theorem find_errors_are_sentinels {S ε : Type}
    (fs : Firestore S ε) (c f op ff fop sf sop p : String)
    (v fv sv : Value) (vs : String) (dir : Direction) (err : Err ε) :
    (fs.FindOneByField c f op v = .error err →
      err = .docsNotFound ∨ err = .notFound) ∧
    (fs.FindOneByTwoFields c ff fop fv sf sop sv = .error err →
      err = .docsNotFound ∨ err = .notFound) ∧
    (fs.FindAllByField c f op v = .error err →
      err = .docsNotFound ∨ err = .notFound) ∧
    (fs.FindAllByTwoFields c ff fop fv sf sop sv = .error err →
      err = .docsNotFound ∨ err = .notFound) ∧
    (fs.FindAllByFieldAndOrder c f op v p dir = .error err →
      err = .docsNotFound ∨ err = .notFound) ∧
    (fs.FindFromArray c f vs = .error err →
      err = .docsNotFound ∨ err = .notFound) ∧
    (fs.GetAll c = .error err → err = .docsNotFound ∨ err = .notFound) ∧
    (fs.GetAllByOrder c p dir = .error err →
      err = .docsNotFound ∨ err = .notFound) := by
  refine ⟨?_, ?_, ?_, ?_, ?_, ?_, ?_, ?_⟩
  · intro h; rw [findOneByField_eq] at h; exact oneShape_error_cases _ _ h
  · intro h; rw [findOneByTwoFields_eq] at h
    exact oneShape_error_cases _ _ h
  · intro h; rw [findAllByField_eq] at h; exact allShape_error_cases _ _ h
  · intro h; rw [findAllByTwoFields_eq] at h
    exact allShape_error_cases _ _ h
  · intro h; rw [findAllByFieldAndOrder_eq] at h
    exact allShape_error_cases _ _ h
  · intro h; rw [findFromArray_eq] at h; exact allShape_error_cases _ _ h
  · intro h; rw [getAll_eq] at h; exact allShape_error_cases _ _ h
  · intro h; rw [getAllByOrder_eq] at h; exact allShape_error_cases _ _ h

/-- C10 witness: the sentinel classification applied to the error
`failStore.GetAll` actually returns (namely `ErrDocsNotFound`). -/
theorem find_errors_are_sentinels_witness :
    (Err.docsNotFound : Err String) = .docsNotFound ∨
      (Err.docsNotFound : Err String) = .notFound := by
  exact (find_errors_are_sentinels failStore "users" "age" ">"
    "name" "==" "age" ">" "age" (Value.int 0) (Value.str "a")
    (Value.int 0) "go" Direction.asc Err.docsNotFound).2.2.2.2.2.2.1 rfl

/-- C3: `Add` first inserts the data; on a successful insert it re-reads
the new document through the returned reference and returns that
snapshot; an insert failure is wrapped with `"adding document"` and a
post-insert read failure with `"getting document snapshot from
firebase"` — the underlying cause `e` is kept inside the wrap, not
replaced by a sentinel. -/
theorem add_insert_then_reread {S ε : Type} (fs : Firestore S ε)
    (c : String) (d : Value) (e : ε) (r : DocumentRef) (w : WriteResult)
    (s : S) :
    (fs.Client.addDoc c d = .error e →
      fs.Add c d = .error (.wrap "adding document" e)) ∧
    (fs.Client.addDoc c d = .ok (r, w) → fs.Client.getDoc r = .error e →
      fs.Add c d = .error (.wrap "getting document snapshot from firebase" e)) ∧
    (fs.Client.addDoc c d = .ok (r, w) → fs.Client.getDoc r = .ok s →
      fs.Add c d = .ok s) := by
  refine ⟨?_, ?_, ?_⟩
  · intro h; simp [Firestore.Add, h]
  · intro h1 h2; simp [Firestore.Add, h1, h2]
  · intro h1 h2; simp [Firestore.Add, h1, h2]

/-- C3 witness: an insert failure, a post-insert read failure, and the
fully successful path, each on its concrete client. -/
theorem add_insert_then_reread_witness :
    failStore.Add "users" Value.null
      = .error (.wrap "adding document" "network") ∧
    addOkGetFailStore.Add "users" Value.null
      = .error (.wrap "getting document snapshot from firebase"
          "read-after-write failed") ∧
    emptyStore.Add "users" Value.null = .ok docA := by
  refine ⟨?_, ?_, ?_⟩
  · exact (add_insert_then_reread failStore "users" Value.null "network"
      ⟨"users", "new1"⟩ ⟨()⟩ docA).1 rfl
  · exact (add_insert_then_reread addOkGetFailStore "users" Value.null
      "read-after-write failed" ⟨"users", "new1"⟩ ⟨()⟩ docA).2.1 rfl rfl
  · exact (add_insert_then_reread emptyStore "users" Value.null "network"
      ⟨"users", "new1"⟩ ⟨()⟩ docA).2.2 rfl rfl

/-- C4: `Delete` forwards the underlying delete call; on failure the
underlying client error `e` is returned verbatim (the result even keeps
the client's own error type, with no translation or wrapping), and on
success `Delete` reports plain success. -/
theorem delete_returns_underlying_error_verbatim {S ε : Type}
    (fs : Firestore S ε) (r : DocumentRef) (e : ε) (w : WriteResult) :
    (fs.Client.deleteDoc r = .error e → fs.Delete r = .error e) ∧
    (fs.Client.deleteDoc r = .ok w → fs.Delete r = .ok ()) := by
  constructor
  · intro h; simp [Firestore.Delete, h]
  · intro h; simp [Firestore.Delete, h]

/-- C4 witness: the failing-client delete returns exactly the client
error `"network"`, and the succeeding-client delete returns success. -/
theorem delete_returns_underlying_error_verbatim_witness :
    failStore.Delete ⟨"users", "doc1"⟩ = .error "network" ∧
    emptyStore.Delete ⟨"users", "doc1"⟩ = .ok () := by
  constructor
  · exact (delete_returns_underlying_error_verbatim failStore
      ⟨"users", "doc1"⟩ "network" ⟨()⟩).1 rfl
  · exact (delete_returns_underlying_error_verbatim emptyStore
      ⟨"users", "doc1"⟩ "network" ⟨()⟩).2 rfl

/-- C5: when the underlying `Set` fails, `Update` wraps the failure with
the constant message produced by the malformed format string
`"updating document %s"` with no argument — the message names the
operation but not the target document's identifier (here `"doc1"`), and
it is identical for two distinct document references. -/
theorem update_wrap_message_omits_identifier :
    failStore.Update ⟨"users", "doc1"⟩ Value.null
      = .error (.wrap "updating document %!s(MISSING)" "network") ∧
    failStore.Update ⟨"users", "doc1"⟩ Value.null
      = failStore.Update ⟨"users", "doc2"⟩ Value.null := by
  exact ⟨rfl, rfl⟩

/-- C6: the find-one variants issue queries limited to 1 result;
`FindOneByTwoFields` issues both Where clauses, whose joint evaluation
(in the modelled backend) is the conjunction of the two predicates; and
on success each find-one operation returns the first snapshot of the
client's result sequence. -/
theorem findOne_limit_one_and_first {S ε : Type} (fs : Firestore S ε)
    (c f op ff fop sf sop : String) (v fv sv : Value) :
    (findOneByFieldQuery c f op v).limit = some 1 ∧
    (findOneByTwoFieldsQuery c ff fop fv sf sop sv).limit = some 1 ∧
    (findOneByTwoFieldsQuery c ff fop fv sf sop sv).wheres
      = [⟨ff, fop, fv⟩, ⟨sf, sop, sv⟩] ∧
    (∀ d : Doc, matchesWheres [⟨ff, fop, fv⟩, ⟨sf, sop, sv⟩] d
      = (matchesFilter ⟨ff, fop, fv⟩ d && matchesFilter ⟨sf, sop, sv⟩ d)) ∧
    (∀ d, fs.FindOneByField c f op v = .ok d →
      ∃ ds, fs.Client.runQuery (findOneByFieldQuery c f op v) = .ok ds ∧
        ds[0]? = some d) ∧
    (∀ d, fs.FindOneByTwoFields c ff fop fv sf sop sv = .ok d →
      ∃ ds, fs.Client.runQuery (findOneByTwoFieldsQuery c ff fop fv sf sop sv)
          = .ok ds ∧ ds[0]? = some d) := by
  refine ⟨rfl, rfl, rfl, ?_, ?_, ?_⟩
  · intro d; simp [matchesWheres]
  · intro d h
    rw [findOneByField_eq] at h
    obtain ⟨ds, hq, hh, _⟩ := oneShape_ok _ _ h
    exact ⟨ds, hq, hh⟩
  · intro d h
    rw [findOneByTwoFields_eq] at h
    obtain ⟨ds, hq, hh, _⟩ := oneShape_ok _ _ h
    exact ⟨ds, hq, hh⟩

/-- C6 witness: on the scenario store, `FindOneByField` succeeds with
`docA`, which is the first snapshot of the underlying result sequence,
and the issued query is limited to one result. -/
theorem findOne_limit_one_and_first_witness :
    (findOneByFieldQuery "users" "name" "==" (Value.str "a")).limit
      = some 1 ∧
    (∃ ds, usersStore.Client.runQuery
        (findOneByFieldQuery "users" "name" "==" (Value.str "a"))
        = .ok ds ∧ ds[0]? = some docA) := by
  obtain ⟨h1, _, _, _, h5, _⟩ :=
    findOne_limit_one_and_first usersStore "users" "name" "=="
      "name" "==" "age" ">" (Value.str "a") (Value.str "a") (Value.int 0)
  exact ⟨h1, h5 docA rfl⟩

/-- C7: on the scenario database where collection `users` holds exactly
the documents `docA` (name "a", age 30) and `docB` (name "b", age 25),
`FindAllByFieldAndOrder "users" "age" ">" 0 "age" asc` returns the two
documents sorted ascending by age: `[docB, docA]`. -/
theorem findAllByFieldAndOrder_scenario :
    usersStore.FindAllByFieldAndOrder "users" "age" ">" (Value.int 0)
      "age" Direction.asc = .ok [docB, docA] := rfl

/-- C8 counterexample: `FindFromArray`'s membership value is restricted
to strings — no string argument ever produces the Where clause whose
value is the (non-string) value `0`. -/
theorem findFromArray_value_not_any_type :
    ¬ ∃ s : String, (findFromArrayQuery "posts" "tags" s).wheres
      = [⟨"tags", "array-contains", Value.int 0⟩] := by
  rintro ⟨s, h⟩
  simp [findFromArrayQuery] at h

/-- C8 (amended): every query operation except `FindFromArray` passes
its caller-supplied comparison value(s) through opaquely, for every
value of the variant type; `FindFromArray`'s membership value parameter
is a string, issued as the string value of an `array-contains` clause. -/
theorem query_values_passed_opaque (c f op ff fop sf sop p : String)
    (v fv sv : Value) (dir : Direction) :
    (findOneByFieldQuery c f op v).wheres = [⟨f, op, v⟩] ∧
    (findOneByTwoFieldsQuery c ff fop fv sf sop sv).wheres
      = [⟨ff, fop, fv⟩, ⟨sf, sop, sv⟩] ∧
    (findAllByFieldQuery c f op v).wheres = [⟨f, op, v⟩] ∧
    (findAllByTwoFieldsQuery c ff fop fv sf sop sv).wheres
      = [⟨ff, fop, fv⟩, ⟨sf, sop, sv⟩] ∧
    (findAllByFieldAndOrderQuery c f op v p dir).wheres = [⟨f, op, v⟩] ∧
    (∀ s : String, (findFromArrayQuery c f s).wheres
      = [⟨f, "array-contains", Value.str s⟩]) :=
  ⟨rfl, rfl, rfl, rfl, rfl, fun _ => rfl⟩

end FStore
